import Mathlib

/-!
Verification development for the distributed work-coordination layer of the
decimer-smiles pipeline (src/decimer-smiles/azure/blob_processor.py and
src/decimer-smiles/azure/worker.py, plus src/decimer-smiles/process_failed_local.py).

The shared PostgreSQL tables are embedded shallowly:
  * the `synthesis` table as a list of `SynthRow`,
  * the `smiles_results` table as a list of `ResultRow`.
Each SQL statement of the source is one atomic transition on that state
(the source runs every statement with autocommit, so a statement is the unit
of atomicity).  Timestamps (SQL `NOW()`) are naturals passed in explicitly;
the 5-minute lease interval of the claiming query is 300 of those units
(seconds).  The `logs` table is best-effort and never read by the core, so it
is not modelled.  Wall-clock durations (`duration_ms`) are recorded as 0:
no claim depends on them.
-/

/-- Lifecycle states of the `status` column of the `synthesis` table:
the source writes the strings 'pending', 'locked', 'completed', 'failed'. -/
inductive SynthStatus where
  | pending
  | locked
  | completed
  | failed
deriving DecidableEq

/-- One row of the `synthesis` table, with the columns the coordination layer
reads or writes: id, name, status, locked_by, locked_at, worker_id,
completed_at, successful, failed, image_count. -/
structure SynthRow where
  id : Nat
  name : String
  status : SynthStatus
  locked_by : Option String := none
  locked_at : Option Nat := none
  worker_id : Option String := none
  completed_at : Option Nat := none
  successful : Nat := 0
  failed : Nat := 0
  image_count : Nat := 0
deriving DecidableEq

/-- One row of the `smiles_results` table, unique on
(synthesis_id, image_filename). -/
structure ResultRow where
  synthesis_id : Nat
  image_filename : String
  smiles : Option String
  smiles_confidence : Option ℚ
  error : Option String
  duration_ms : Nat
  worker_id : String
  processed_at : Nat
deriving DecidableEq

/-- The whole shared store. -/
structure DBState where
  synths : List SynthRow
  results : List ResultRow
deriving DecidableEq

/-- The lease of the claiming query: `INTERVAL '5 minutes'`, in seconds. -/
def LEASE : Nat := 300

/-- The WHERE clause of the claiming subselect in
`blob_processor.find_and_lock_available`:
`status = 'pending' OR (status = 'locked' AND locked_at < NOW() - INTERVAL '5 minutes')`.
A NULL `locked_at` compares as unknown in SQL, hence not eligible on the
second disjunct. -/
def eligible (now : Nat) (r : SynthRow) : Bool :=
  decide (r.status = SynthStatus.pending) ||
    (decide (r.status = SynthStatus.locked) &&
      (match r.locked_at with
       | some l => decide (l + LEASE < now)
       | none => false))

/-- Code-point comparison of single characters, for the lexicographic string
order both Python's `sorted` and the store's byte collation use. -/
def charLt (a b : Char) : Bool := decide (a.toNat < b.toNat)

/-- Lexicographic order on character lists: the empty list first, then by the
first differing code point (Python's `str` comparison). -/
def lexLe : List Char → List Char → Bool
  | [], _ => true
  | _ :: _, [] => false
  | a :: as, b :: bs => charLt a b || (decide (a.toNat = b.toNat) && lexLe as bs)

/-- The string order `ORDER BY name` and Python's `sorted` sort by. -/
def pyLe (a b : String) : Bool := lexLe a.data b.data

/-- The `ORDER BY name LIMIT 1` of the claiming subselect: the least name of
the candidate list (ties cannot arise: `name` is UNIQUE). -/
def minName : List String → Option String
  | [] => none
  | n :: ns =>
    some (match minName ns with
          | none => n
          | some m => if pyLe n m then n else m)

/-- The SET clause of the claiming UPDATE, applied to the selected name. -/
def lockUpd (worker_id : String) (now : Nat) (n : String) (r : SynthRow) : SynthRow :=
  if r.name = n then
    { r with status := SynthStatus.locked, locked_by := some worker_id,
             locked_at := some now }
  else r

/-- Embeds `blob_processor.find_and_lock_available`: one atomic
`UPDATE synthesis SET status='locked', locked_by=%s, locked_at=NOW()
 WHERE name = (SELECT name ... ORDER BY name LIMIT 1 FOR UPDATE SKIP LOCKED)
 RETURNING name`.
Returns the claimed name (None when no row is eligible) and the new table. -/
def find_and_lock_available (worker_id : String) (now : Nat) (s : List SynthRow) :
    Option String × List SynthRow :=
  match minName ((s.filter (eligible now)).map SynthRow.name) with
  | none => (none, s)
  | some n => (some n, s.map (lockUpd worker_id now n))

/-- The WHERE clause of `worker.extend_lock`:
`name = %s AND locked_by = %s AND status = 'locked'`. -/
def extendCond (directory worker_id : String) (r : SynthRow) : Bool :=
  decide (r.name = directory) && decide (r.locked_by = some worker_id) &&
    decide (r.status = SynthStatus.locked)

/-- Embeds `worker.extend_lock`: `UPDATE synthesis SET locked_at = NOW() WHERE name = %s
AND locked_by = %s AND status = 'locked' RETURNING name`; the Bool is
`result is not None` after `fetchone()` (a row was updated). -/
def extend_lock (directory worker_id : String) (now : Nat) (s : List SynthRow) :
    Bool × List SynthRow :=
  (s.any (extendCond directory worker_id),
   s.map (fun r => if extendCond directory worker_id r
                   then { r with locked_at := some now } else r))

/-- The conflict key of `smiles_results`: `UNIQUE(synthesis_id, image_filename)`. -/
def resultKey (sid : Nat) (fname : String) (r : ResultRow) : Bool :=
  decide (r.synthesis_id = sid) && decide (r.image_filename = fname)

/-- Embeds `worker.save_smiles_result` (and the identical statement of
`process_failed_local.save_smiles_result`): `INSERT INTO smiles_results ...
ON CONFLICT (synthesis_id, image_filename) DO UPDATE SET smiles = EXCLUDED.smiles,
smiles_confidence = ..., error = ..., duration_ms = ..., worker_id = ...,
processed_at = NOW()`. -/
def save_smiles_result (sid : Nat) (fname : String) (smiles : Option String)
    (conf : Option ℚ) (err : Option String) (dur : Nat) (worker_id : String)
    (now : Nat) (rs : List ResultRow) : List ResultRow :=
  if rs.any (resultKey sid fname) then
    rs.map (fun r => if resultKey sid fname r then
      { r with smiles := smiles, smiles_confidence := conf, error := err,
               duration_ms := dur, worker_id := worker_id, processed_at := now }
      else r)
  else
    rs ++ [{ synthesis_id := sid, image_filename := fname, smiles := smiles,
             smiles_confidence := conf, error := err, duration_ms := dur,
             worker_id := worker_id, processed_at := now }]

/-- Embeds `worker.mark_completed`: `UPDATE synthesis SET status='completed',
completed_at=NOW(), worker_id=%s, successful=%s, failed=%s, image_count=%s
WHERE name = %s`. -/
def mark_completed (directory worker_id : String) (successful failedCount image_count : Nat)
    (now : Nat) (s : List SynthRow) : List SynthRow :=
  s.map (fun r => if r.name = directory then
    { r with status := SynthStatus.completed, completed_at := some now,
             worker_id := some worker_id, successful := successful,
             failed := failedCount, image_count := image_count }
    else r)

/-- Embeds `worker.mark_failed`: `UPDATE synthesis SET status='failed', worker_id=%s
WHERE name = %s`. -/
def mark_failed (directory worker_id : String) (s : List SynthRow) : List SynthRow :=
  s.map (fun r => if r.name = directory then
    { r with status := SynthStatus.failed, worker_id := some worker_id }
    else r)

/-- Embeds `worker.get_synthesis_id`: `SELECT id FROM synthesis WHERE name = %s`,
`fetchone()`. -/
def get_synthesis_id (directory : String) (s : List SynthRow) : Option Nat :=
  (s.find? (fun r => decide (r.name = directory))).map SynthRow.id

/-! ## The worker control flow (`worker.main`)

The worker is a straight-line program against the shared store.  Its
environment is abstracted where the source calls out of the repository:
  * `model` stands for `DECIMER.predict_SMILES(path, confidence=True)`,
    returning `(smiles, [(char, confidence), ...])` or raising — an
    `Except`; the char confidences are rationals in place of floats,
  * `images` is the list of image filenames the blob enumeration produced
    (the blob store is external); the source then sorts them,
  * `env` models the interleaved atomic statements of OTHER processes against
    the shared store: `env i` is applied at the start of loop iteration `i`,
    during the long-running inference call (each SQL statement of the source
    is atomic, so interference happens between statements),
  * `time i` is the clock at iteration `i`'s writes, `t0` at the startup
    lock extension, `tfin` at the finalize. -/

/-- The average-confidence computation of `worker.main`:
`sum(float(c[1]) for c in cc) / len(cc)` when `cc` is non-empty, else None. -/
def avgConfidence (cc : List (String × ℚ)) : Option ℚ :=
  if cc = [] then none
  else some ((cc.map Prod.snd).sum / (cc.length : ℚ))

/-- Python `sorted` on the downloaded filenames (`for i, img in
enumerate(sorted(images))`): insertion into a sorted list ... -/
def insertSorted (x : String) : List String → List String
  | [] => [x]
  | y :: ys => if pyLe x y then x :: y :: ys else y :: insertSorted x ys

/-- Insertion sort itself, completing the model of Python `sorted`. -/
def sortImages : List String → List String
  | [] => []
  | x :: xs => insertSorted x (sortImages xs)

/-- What one run of the per-image loop of `worker.main` produces:
the `successful` and `failed` counters, the result of each per-image
`extend_lock` call (in image order; the source IGNORES these Booleans),
and the store. -/
structure LoopOut where
  successful : Nat
  failedCount : Nat
  hbs : List Bool
  db : DBState
deriving DecidableEq

/-- The per-image loop of `worker.main` (lines 194-244): for each image,
run inference; on success `save_smiles_result` with the smiles and average
confidence and a NULL error; on exception `save_smiles_result` with NULL
smiles/confidence and the message; then `extend_lock` — whose Boolean result
the source discards.  `i` is the loop index, `succ`/`fail` the counters. -/
def processImages (sid : Nat) (directory worker_id : String)
    (model : String → Except String (String × List (String × ℚ)))
    (env : Nat → DBState → DBState) (time : Nat → Nat) :
    Nat → List String → Nat → Nat → DBState → LoopOut
  | _, [], succ, failCnt, db => ⟨succ, failCnt, [], db⟩
  | i, img :: rest, succ, failCnt, db =>
    let db1 := env i db
    let step :=
      match model img with
      | Except.ok (smiles, cc) =>
        (succ + 1, failCnt,
         { db1 with results := save_smiles_result sid img (some smiles)
                      (avgConfidence cc) none 0 worker_id (time i) db1.results })
      | Except.error e =>
        (succ, failCnt + 1,
         { db1 with results := save_smiles_result sid img none none (some e) 0
                      worker_id (time i) db1.results })
    let hb := extend_lock directory worker_id (time i) step.2.2.synths
    let rest' := processImages sid directory worker_id model env time (i + 1) rest
                   step.1 step.2.1 { step.2.2 with synths := hb.2 }
    ⟨rest'.successful, rest'.failedCount, hb.1 :: rest'.hbs, rest'.db⟩

/-- What a worker run produces: the process exit code, the per-image
heartbeat results, and the store. -/
structure WorkerOut where
  exitCode : Nat
  hbs : List Bool
  db : DBState
deriving DecidableEq

/-- Embeds `worker.main` after argument parsing (lines 147-248), for executions whose
only exceptions are the per-image inference errors (which the source catches
per item; `model` returns them as `Except.error`):
1. `get_synthesis_id`; `if not synthesis_id` (Python falsiness: absent OR id 0)
   exit 1;
2. startup `extend_lock`; on failure exit 1 — with no further write;
3. download/enumerate images; if none, `mark_completed` with zero counts and
   return (exit 0);
4. run the per-image loop on the sorted filenames;
5. `mark_completed` with the counters and `len(images)`; exit 0. -/
def workerMain (directory worker_id : String) (t0 : Nat) (images : List String)
    (model : String → Except String (String × List (String × ℚ)))
    (env : Nat → DBState → DBState) (time : Nat → Nat) (tfin : Nat)
    (db : DBState) : WorkerOut :=
  match get_synthesis_id directory db.synths with
  | none => ⟨1, [], db⟩
  | some sid =>
    if sid = 0 then ⟨1, [], db⟩
    else
      let ext := extend_lock directory worker_id t0 db.synths
      let db1 : DBState := { db with synths := ext.2 }
      if ext.1 = false then ⟨1, [], db1⟩
      else if images = [] then
        ⟨0, [], { db1 with synths := mark_completed directory worker_id 0 0 0 tfin db1.synths }⟩
      else
        let out := processImages sid directory worker_id model env time 0
                     (sortImages images) 0 0 db1
        ⟨0, out.hbs,
         { out.db with synths := mark_completed directory worker_id out.successful
                         out.failedCount images.length tfin out.db.synths }⟩

/-- A sequence of find-and-lock invocations applied to the ledger in the
order the storage layer serializes them (each is one atomic UPDATE): the
list of returned names and the final ledger. -/
def runFAL : List (String × Nat) → List SynthRow → List (Option String) × List SynthRow
  | [], s => ([], s)
  | (w, t) :: cs, s =>
    let one := find_and_lock_available w t s
    let rest := runFAL cs one.2
    (one.1 :: rest.1, rest.2)

/-! ## Order facts for the selection key -/

theorem lexLe_refl (l : List Char) : lexLe l l = true := by
  induction l with
  | nil => rfl
  | cons a as ih => simp [lexLe, charLt, ih]

theorem lexLe_total (l₁ l₂ : List Char) : lexLe l₁ l₂ = true ∨ lexLe l₂ l₁ = true := by
  induction l₁ generalizing l₂ with
  | nil => exact Or.inl rfl
  | cons a as ih =>
    cases l₂ with
    | nil => exact Or.inr rfl
    | cons b bs =>
      rcases Nat.lt_trichotomy a.toNat b.toNat with h | h | h
      · exact Or.inl (by simp [lexLe, charLt, h])
      · rcases ih bs with h' | h'
        · exact Or.inl (by simp [lexLe, charLt, h, h'])
        · exact Or.inr (by simp [lexLe, charLt, h.symm, h'])
      · exact Or.inr (by simp [lexLe, charLt, h])

theorem lexLe_trans (l₁ l₂ l₃ : List Char) (h12 : lexLe l₁ l₂ = true)
    (h23 : lexLe l₂ l₃ = true) : lexLe l₁ l₃ = true := by
  induction l₁ generalizing l₂ l₃ with
  | nil => rfl
  | cons a as ih =>
    cases l₂ with
    | nil => simp [lexLe] at h12
    | cons b bs =>
      cases l₃ with
      | nil => simp [lexLe] at h23
      | cons c cs =>
        simp only [lexLe, charLt, Bool.or_eq_true, Bool.and_eq_true,
          decide_eq_true_eq] at h12 h23 ⊢
        rcases h12 with h12 | ⟨hab, h12⟩
        · rcases h23 with h23 | ⟨hbc, _⟩
          · exact Or.inl (h12.trans h23)
          · exact Or.inl (hbc ▸ h12)
        · rcases h23 with h23 | ⟨hbc, h23⟩
          · exact Or.inl (hab ▸ h23)
          · exact Or.inr ⟨hab.trans hbc, ih bs cs h12 h23⟩

theorem pyLe_refl (a : String) : pyLe a a = true := lexLe_refl a.data

theorem pyLe_total (a b : String) : pyLe a b = true ∨ pyLe b a = true :=
  lexLe_total a.data b.data

theorem pyLe_trans (a b c : String) (h1 : pyLe a b = true) (h2 : pyLe b c = true) :
    pyLe a c = true := lexLe_trans a.data b.data c.data h1 h2

/-! ## Facts about the claiming subselect -/

theorem minName_eq_none (l : List String) : minName l = none ↔ l = [] := by
  cases l <;> simp [minName]

theorem minName_mem (l : List String) (m : String) (h : minName l = some m) : m ∈ l := by
  induction l generalizing m with
  | nil => simp [minName] at h
  | cons n ns ih =>
    simp only [minName] at h
    cases hm : minName ns with
    | none => rw [hm] at h; simp at h; simp [h]
    | some m' =>
      rw [hm] at h
      simp only [Option.some.injEq] at h
      by_cases hle : pyLe n m' = true
      · rw [if_pos hle] at h; simp [h]
      · rw [if_neg hle] at h
        exact List.mem_cons_of_mem n (h ▸ ih m' hm)

theorem minName_le (l : List String) (m : String) (h : minName l = some m) :
    ∀ x ∈ l, pyLe m x = true := by
  induction l generalizing m with
  | nil => simp [minName] at h
  | cons n ns ih =>
    intro x hx
    cases hm : minName ns with
    | none =>
      have hns : ns = [] := (minName_eq_none ns).mp hm
      subst hns
      have hmn : n = m := by simpa [minName] using h
      have hxn : x = n := by simpa using hx
      rw [hxn, ← hmn]
      exact pyLe_refl n
    | some m' =>
      have hm' : m = if pyLe n m' then n else m' := by
        have := h
        simp only [minName, hm, Option.some.injEq] at this
        exact this.symm
      have hle' : ∀ y ∈ ns, pyLe m' y = true := ih m' hm
      rcases List.mem_cons.mp hx with hxn | hx'
      · subst hxn
        by_cases hle : pyLe x m' = true
        · rw [hm', if_pos hle]
          exact pyLe_refl x
        · rw [hm', if_neg hle]
          rcases pyLe_total x m' with h' | h'
          · exact absurd h' hle
          · exact h'
      · by_cases hle : pyLe n m' = true
        · rw [hm', if_pos hle]
          exact pyLe_trans n m' x hle (hle' x hx')
        · rw [hm', if_neg hle]
          exact hle' x hx'

/-! ## Eligibility -/

theorem eligible_iff (now : Nat) (r : SynthRow) :
    eligible now r = true ↔
      (r.status = SynthStatus.pending ∨
       (r.status = SynthStatus.locked ∧ ∃ l, r.locked_at = some l ∧ l + LEASE < now)) := by
  cases h : r.locked_at <;>
    simp [eligible, h]

theorem eligible_terminal (now : Nat) (r : SynthRow)
    (h : r.status = SynthStatus.failed ∨ r.status = SynthStatus.completed) :
    eligible now r = false := by
  rcases h with h | h <;> cases hl : r.locked_at <;> simp [eligible, h, hl]

theorem eligible_of_locked_at (t now : Nat) (r : SynthRow)
    (hs : r.status = SynthStatus.locked) (hl : r.locked_at = some t) :
    (eligible now r = true ↔ t + LEASE < now) := by
  simp [eligible, hs, hl]

/-! ## Facts about find-and-lock -/

theorem lockUpd_name (w : String) (t : Nat) (n : String) (r : SynthRow) :
    (lockUpd w t n r).name = r.name := by
  unfold lockUpd; split <;> rfl

theorem fal_none_eq (w : String) (now : Nat) (s : List SynthRow)
    (h : (find_and_lock_available w now s).1 = none) :
    (find_and_lock_available w now s).2 = s := by
  unfold find_and_lock_available at *
  cases hM : minName ((s.filter (eligible now)).map SynthRow.name) <;>
    simp [hM] at h ⊢

theorem fal_some_eq (w : String) (now : Nat) (s : List SynthRow) (u : String)
    (h : (find_and_lock_available w now s).1 = some u) :
    (find_and_lock_available w now s).2 = s.map (lockUpd w now u) := by
  unfold find_and_lock_available at *
  cases hM : minName ((s.filter (eligible now)).map SynthRow.name) with
  | none => simp [hM] at h
  | some v =>
    rw [hM] at h
    have h' : v = u := by simpa using h
    subst h'
    rfl

theorem fal_none_iff (w : String) (now : Nat) (s : List SynthRow) :
    (find_and_lock_available w now s).1 = none ↔ ∀ r ∈ s, eligible now r = false := by
  unfold find_and_lock_available
  cases hM : minName ((s.filter (eligible now)).map SynthRow.name) with
  | none =>
    simp only [hM]
    have hnil : (s.filter (eligible now)).map SynthRow.name = [] :=
      (minName_eq_none _).mp hM
    have hfil : s.filter (eligible now) = [] := by
      cases hf : s.filter (eligible now) with
      | nil => rfl
      | cons a l => rw [hf] at hnil; simp at hnil
    constructor
    · intro _ r hr
      by_contra hne
      have : r ∈ s.filter (eligible now) :=
        List.mem_filter.mpr ⟨hr, by simpa using hne⟩
      rw [hfil] at this
      exact absurd this (List.not_mem_nil r)
    · intro _; trivial
  | some v =>
    simp only [hM]
    have hv := minName_mem _ _ hM
    obtain ⟨r, hrf, hrn⟩ := List.mem_map.mp hv
    have hrs := List.mem_filter.mp hrf
    constructor
    · intro h; simp at h
    · intro h
      have := h r hrs.1
      rw [this] at hrs
      simp at hrs

theorem fal_some_elig (w : String) (now : Nat) (s : List SynthRow) (u : String)
    (h : (find_and_lock_available w now s).1 = some u) :
    ∃ r ∈ s, r.name = u ∧ eligible now r = true := by
  unfold find_and_lock_available at h
  cases hM : minName ((s.filter (eligible now)).map SynthRow.name) with
  | none => rw [hM] at h; simp at h
  | some v =>
    rw [hM] at h
    simp only [Option.some.injEq] at h
    subst h
    have hv := minName_mem _ _ hM
    obtain ⟨r, hrf, hrn⟩ := List.mem_map.mp hv
    have hrs := List.mem_filter.mp hrf
    exact ⟨r, hrs.1, hrn, hrs.2⟩

theorem fal_some_min (w : String) (now : Nat) (s : List SynthRow) (u : String)
    (h : (find_and_lock_available w now s).1 = some u) :
    ∀ r ∈ s, eligible now r = true → pyLe u r.name = true := by
  intro r hr helig
  unfold find_and_lock_available at h
  cases hM : minName ((s.filter (eligible now)).map SynthRow.name) with
  | none => rw [hM] at h; simp at h
  | some v =>
    rw [hM] at h
    simp only [Option.some.injEq] at h
    subst h
    exact minName_le _ _ hM r.name
      (List.mem_map.mpr ⟨r, List.mem_filter.mpr ⟨hr, helig⟩, rfl⟩)

theorem fal_locks (w : String) (now : Nat) (s : List SynthRow) (u : String)
    (h : (find_and_lock_available w now s).1 = some u) :
    ∀ r' ∈ (find_and_lock_available w now s).2, r'.name = u →
      r'.status = SynthStatus.locked ∧ r'.locked_by = some w ∧
        r'.locked_at = some now := by
  intro r' hr' hn
  rw [fal_some_eq w now s u h] at hr'
  obtain ⟨r, _, hru⟩ := List.mem_map.mp hr'
  by_cases hname : r.name = u
  · rw [← hru]
    unfold lockUpd
    rw [if_pos hname]
    exact ⟨rfl, rfl, rfl⟩
  · exfalso
    apply hname
    rw [← lockUpd_name w now u r, hru, hn]

theorem fal_preserves (w : String) (now : Nat) (s : List SynthRow) (u : String)
    (P : SynthRow → Prop)
    (h : (find_and_lock_available w now s).1 ≠ some u)
    (hP : ∀ r ∈ s, r.name = u → P r) :
    ∀ r' ∈ (find_and_lock_available w now s).2, r'.name = u → P r' := by
  intro r' hr' hn
  cases hres : (find_and_lock_available w now s).1 with
  | none =>
    rw [fal_none_eq w now s hres] at hr'
    exact hP r' hr' hn
  | some v =>
    have hvu : v ≠ u := fun he => h (he ▸ hres)
    rw [fal_some_eq w now s v hres] at hr'
    obtain ⟨r, hr, hru⟩ := List.mem_map.mp hr'
    have hrname : r.name = u := by rw [← lockUpd_name w now v r, hru, hn]
    have : lockUpd w now v r = r := by
      unfold lockUpd
      rw [if_neg (by rw [hrname]; exact fun he => hvu he.symm)]
    rw [← hru, this]
    exact hP r hr hrname

theorem runFAL_preserves (cs : List (String × Nat)) (s : List SynthRow) (u : String)
    (P : SynthRow → Prop)
    (h : some u ∉ (runFAL cs s).1)
    (hP : ∀ r ∈ s, r.name = u → P r) :
    ∀ r' ∈ (runFAL cs s).2, r'.name = u → P r' := by
  induction cs generalizing s with
  | nil => exact hP
  | cons c cs ih =>
    obtain ⟨w, t⟩ := c
    simp only [runFAL, List.mem_cons, not_or] at h
    exact ih (find_and_lock_available w t s).2 h.2
      (fal_preserves w t s u P (fun he => h.1 he.symm) hP)

/-- C1: in any serialization of find-and-lock invocations against the same
ledger (each invocation is the single atomic UPDATE of
`find_and_lock_available`, so the storage layer alone orders them), each
invocation returns at most one unit (its result is an `Option`), and once
an invocation has returned unit `u` at time `t`, no later invocation can
return `u` again until `u`'s claim has expired: if none of the intervening
invocations returned `u` and a later invocation at time `t'` returns `u`,
then `t + LEASE < t'` — so no two callers ever hold `u` while the first
claim is still live. -/
theorem find_and_lock_mutual_exclusion
    (s : List SynthRow) (w : String) (t : Nat) (u : String)
    (cs : List (String × Nat)) (w' : String) (t' : Nat)
    (h1 : (find_and_lock_available w t s).1 = some u)
    (h2 : some u ∉ (runFAL cs (find_and_lock_available w t s).2).1)
    (h3 : (find_and_lock_available w' t'
            (runFAL cs (find_and_lock_available w t s).2).2).1 = some u) :
    t + LEASE < t' := by
  have hlock := fal_locks w t s u h1
  have hP : ∀ r' ∈ (runFAL cs (find_and_lock_available w t s).2).2, r'.name = u →
      r'.status = SynthStatus.locked ∧ r'.locked_at = some t :=
    runFAL_preserves cs _ u _ h2
      (fun r hr hn => ⟨(hlock r hr hn).1, (hlock r hr hn).2.2⟩)
  obtain ⟨r, hr, hn, helig⟩ := fal_some_elig w' t' _ u h3
  obtain ⟨hst, hat⟩ := hP r hr hn
  exact (eligible_of_locked_at t t' r hst hat).mp helig

/-- C1 witness: a pending unit claimed by "A" at time 0 is handed to "B"
only at time 301, after the 300-second lease has expired. -/
theorem find_and_lock_mutual_exclusion_witness :
    (find_and_lock_available "A" 0
      [{ id := 1, name := "mol-1", status := SynthStatus.pending }]).1 = some "mol-1"
    ∧ some "mol-1" ∉ (runFAL [] (find_and_lock_available "A" 0
        [{ id := 1, name := "mol-1", status := SynthStatus.pending }]).2).1
    ∧ (find_and_lock_available "B" 301 (runFAL [] (find_and_lock_available "A" 0
        [{ id := 1, name := "mol-1", status := SynthStatus.pending }]).2).2).1 = some "mol-1"
    ∧ 0 + LEASE < 301 :=
  ⟨by decide, by decide, by decide,
   find_and_lock_mutual_exclusion
     [{ id := 1, name := "mol-1", status := SynthStatus.pending }]
     "A" 0 "mol-1" [] "B" 301 (by decide) (by decide) (by decide)⟩

/-- C2: find-and-lock selects exactly the eligible units — eligible iff
pending, or locked with `locked_at` older than the 5-minute lease; a failed
unit is never eligible (the lease-expiry path does not apply to it); when no
unit is eligible the call returns `none` rather than failing; when one is,
the returned unit is eligible, is the least eligible name, and the new
ledger records it locked by the caller at the current time (all other rows
untouched, as the `map` equation shows). -/
theorem find_and_lock_selects_eligible (w : String) (now : Nat) (s : List SynthRow) :
    (∀ r : SynthRow, eligible now r = true ↔
       (r.status = SynthStatus.pending ∨
        (r.status = SynthStatus.locked ∧ ∃ l, r.locked_at = some l ∧ l + LEASE < now)))
    ∧ (∀ r : SynthRow, r.status = SynthStatus.failed → eligible now r = false)
    ∧ ((find_and_lock_available w now s).1 = none ↔ ∀ r ∈ s, eligible now r = false)
    ∧ (∀ u, (find_and_lock_available w now s).1 = some u →
        (∃ r ∈ s, r.name = u ∧ eligible now r = true)
        ∧ (∀ r ∈ s, eligible now r = true → pyLe u r.name = true)
        ∧ (∀ r' ∈ (find_and_lock_available w now s).2, r'.name = u →
             r'.status = SynthStatus.locked ∧ r'.locked_by = some w ∧
               r'.locked_at = some now)
        ∧ (find_and_lock_available w now s).2 = s.map (lockUpd w now u)) :=
  ⟨fun r => eligible_iff now r,
   fun r h => eligible_terminal now r (Or.inl h),
   fal_none_iff w now s,
   fun u hu =>
     ⟨fal_some_elig w now s u hu, fal_some_min w now s u hu,
      fal_locks w now s u hu, fal_some_eq w now s u hu⟩⟩

/-- C3: the heartbeat updates `locked_at` to the current time on exactly the
rows whose name matches and whose `locked_by` still equals the supplied
claimant with state still locked, and reports success exactly when such a
row exists (a row was updated); otherwise it reports failure and the row is
untouched. -/
theorem extend_lock_renews_iff_held (d w : String) (now : Nat) (s : List SynthRow) :
    ((extend_lock d w now s).1 = true ↔
       ∃ r ∈ s, r.name = d ∧ r.locked_by = some w ∧ r.status = SynthStatus.locked)
    ∧ (∀ r : SynthRow, extendCond d w r = true ↔
         (r.name = d ∧ r.locked_by = some w ∧ r.status = SynthStatus.locked))
    ∧ (extend_lock d w now s).2 =
        s.map (fun r => if extendCond d w r then { r with locked_at := some now } else r)
    ∧ (∀ r ∈ s,
        (extendCond d w r = true →
          { r with locked_at := some now } ∈ (extend_lock d w now s).2)
        ∧ (extendCond d w r = false → r ∈ (extend_lock d w now s).2)) := by
  have hcond : ∀ r : SynthRow, extendCond d w r = true ↔
      (r.name = d ∧ r.locked_by = some w ∧ r.status = SynthStatus.locked) := by
    intro r
    simp [extendCond, and_assoc]
  refine ⟨?_, hcond, rfl, ?_⟩
  · rw [show (extend_lock d w now s).1 = s.any (extendCond d w) from rfl,
      List.any_eq_true]
    constructor
    · rintro ⟨r, hr, hc⟩
      exact ⟨r, hr, (hcond r).mp hc⟩
    · rintro ⟨r, hr, hc⟩
      exact ⟨r, hr, (hcond r).mpr hc⟩
  · intro r hr
    constructor
    · intro hc
      have h2 := List.mem_map_of_mem
        (fun r => if extendCond d w r then { r with locked_at := some now } else r) hr
      simp only [hc, if_true] at h2
      exact h2
    · intro hc
      have h2 := List.mem_map_of_mem
        (fun r => if extendCond d w r then { r with locked_at := some now } else r) hr
      simp only [hc, Bool.false_eq_true, if_false] at h2
      exact h2

/-- C10: `mark_completed` and `mark_failed` update every row matched by name
with no condition on `locked_by` or `status`: any row named `d` — even one
currently locked by a different claimant — is overwritten with the caller's
terminal state and counts, and rows with other names are untouched. -/
theorem mark_terminal_unconditional (d w : String) (sc fc ic now : Nat)
    (s : List SynthRow) :
    ∀ r ∈ s, (r.name = d →
      ({ r with
          status := SynthStatus.completed
          completed_at := some now
          worker_id := some w
          successful := sc
          failed := fc
          image_count := ic }
        ∈ mark_completed d w sc fc ic now s)
      ∧ ({ r with
            status := SynthStatus.failed
            worker_id := some w }
        ∈ mark_failed d w s))
    ∧ (r.name ≠ d →
        r ∈ mark_completed d w sc fc ic now s ∧ r ∈ mark_failed d w s) := by
  intro r hr
  constructor
  · intro hname
    constructor
    · refine List.mem_map.mpr ⟨r, hr, ?_⟩
      simp [hname]
    · refine List.mem_map.mpr ⟨r, hr, ?_⟩
      simp [hname]
  · intro hname
    constructor
    · refine List.mem_map.mpr ⟨r, hr, ?_⟩
      simp [hname]
    · refine List.mem_map.mpr ⟨r, hr, ?_⟩
      simp [hname]

/-- C10 witness: claimant "A" finalizes a unit currently locked by "B",
overwriting B's live claim with A's terminal state. -/
theorem mark_terminal_unconditional_witness :
    ({ id := 1
       name := "mol-9"
       status := SynthStatus.locked
       locked_by := some "B"
       locked_at := some 400 } : SynthRow) ∈
      [({ id := 1
          name := "mol-9"
          status := SynthStatus.locked
          locked_by := some "B"
          locked_at := some 400 } : SynthRow)]
    ∧ ({ id := 1
         name := "mol-9"
         status := SynthStatus.completed
         locked_by := some "B"
         locked_at := some 400
         worker_id := some "A"
         completed_at := some 500
         successful := 3
         failed := 0
         image_count := 3 } : SynthRow)
        ∈ mark_completed "mol-9" "A" 3 0 3 500
            [{ id := 1
               name := "mol-9"
               status := SynthStatus.locked
               locked_by := some "B"
               locked_at := some 400 }] :=
  ⟨by decide,
   ((mark_terminal_unconditional "mol-9" "A" 3 0 3 500
      [{ id := 1
         name := "mol-9"
         status := SynthStatus.locked
         locked_by := some "B"
         locked_at := some 400 }]
      { id := 1
        name := "mol-9"
        status := SynthStatus.locked
        locked_by := some "B"
        locked_at := some 400 }
      (by decide)).1 (by decide)).1⟩

/-! ## Upsert facts -/

theorem save_filter_singleton (sid : Nat) (fname : String) (sm : Option String)
    (cf : Option ℚ) (er : Option String) (du : Nat) (w : String) (t : Nat)
    (rs : List ResultRow)
    (h : (rs.filter (resultKey sid fname)).length ≤ 1) :
    (save_smiles_result sid fname sm cf er du w t rs).filter (resultKey sid fname)
      = [{ synthesis_id := sid
           image_filename := fname
           smiles := sm
           smiles_confidence := cf
           error := er
           duration_ms := du
           worker_id := w
           processed_at := t }] := by
  unfold save_smiles_result
  by_cases hany : rs.any (resultKey sid fname) = true
  · rw [if_pos hany]
    have hkeep : ∀ r : ResultRow,
        resultKey sid fname (if resultKey sid fname r then
          { r with smiles := sm, smiles_confidence := cf, error := er,
                   duration_ms := du, worker_id := w, processed_at := t }
          else r) = resultKey sid fname r := by
      intro r
      by_cases hk : resultKey sid fname r = true
      · rw [if_pos hk]
        rw [show resultKey sid fname
          { r with smiles := sm, smiles_confidence := cf, error := er,
                   duration_ms := du, worker_id := w, processed_at := t }
          = resultKey sid fname r from rfl]
      · rw [if_neg (by simp [hk])]
    have hcomm : ∀ l : List ResultRow,
        (l.map (fun r => if resultKey sid fname r then
            { r with smiles := sm, smiles_confidence := cf, error := er,
                     duration_ms := du, worker_id := w, processed_at := t }
            else r)).filter (resultKey sid fname)
          = (l.filter (resultKey sid fname)).map (fun r => if resultKey sid fname r then
              { r with smiles := sm, smiles_confidence := cf, error := er,
                       duration_ms := du, worker_id := w, processed_at := t }
              else r) := by
      intro l
      induction l with
      | nil => rfl
      | cons a as ih =>
        by_cases hk : resultKey sid fname a = true
        · obtain ⟨h1, h2⟩ : a.synthesis_id = sid ∧ a.image_filename = fname := by
            simpa [resultKey] using hk
          have hku : resultKey sid fname
              { synthesis_id := a.synthesis_id
                image_filename := a.image_filename
                smiles := sm
                smiles_confidence := cf
                error := er
                duration_ms := du
                worker_id := w
                processed_at := t } = true := by
            simp [resultKey, h1, h2]
          simp [List.filter_cons, hk, ih, hku]
        · simp [List.filter_cons, hkeep a, hk, ih]
    rw [hcomm rs]
    obtain ⟨r₀, hrs, hr₀⟩ := List.any_eq_true.mp hany
    have hmem : r₀ ∈ rs.filter (resultKey sid fname) :=
      List.mem_filter.mpr ⟨hrs, hr₀⟩
    have hlen1 : (rs.filter (resultKey sid fname)).length = 1 := by
      have : 0 < (rs.filter (resultKey sid fname)).length :=
        List.length_pos.mpr (List.ne_nil_of_mem hmem)
      omega
    obtain ⟨a, ha⟩ := List.length_eq_one.mp hlen1
    have hka : resultKey sid fname a = true := by
      have : a ∈ rs.filter (resultKey sid fname) := by rw [ha]; exact List.mem_singleton_self a
      exact (List.mem_filter.mp this).2
    obtain ⟨hsid, hfname⟩ : a.synthesis_id = sid ∧ a.image_filename = fname := by
      simpa [resultKey] using hka
    rw [ha]
    simp [hka, hsid, hfname]
  · rw [if_neg hany]
    have hfil : rs.filter (resultKey sid fname) = [] := by
      cases hf : rs.filter (resultKey sid fname) with
      | nil => rfl
      | cons a l =>
        exfalso
        apply hany
        have : a ∈ rs.filter (resultKey sid fname) := by rw [hf]; exact List.mem_cons_self a l
        have h2 := List.mem_filter.mp this
        exact List.any_eq_true.mpr ⟨a, h2.1, h2.2⟩
    rw [List.filter_append, hfil]
    simp [resultKey]

/-- C6: writing an ImageResult twice for the same (work unit, image filename)
pair — with possibly different content — leaves exactly one stored row for
that pair, holding the content of the second (latest) write: upsert, never
duplication.  The hypothesis is the table's UNIQUE(synthesis_id,
image_filename) constraint on the starting state. -/
theorem save_smiles_result_upsert (sid : Nat) (fname : String)
    (sm₁ sm₂ : Option String) (cf₁ cf₂ : Option ℚ) (er₁ er₂ : Option String)
    (du₁ du₂ : Nat) (w₁ w₂ : String) (t₁ t₂ : Nat) (rs : List ResultRow)
    (h : (rs.filter (resultKey sid fname)).length ≤ 1) :
    ((save_smiles_result sid fname sm₂ cf₂ er₂ du₂ w₂ t₂
        (save_smiles_result sid fname sm₁ cf₁ er₁ du₁ w₁ t₁ rs)).filter
      (resultKey sid fname))
      = [{ synthesis_id := sid
           image_filename := fname
           smiles := sm₂
           smiles_confidence := cf₂
           error := er₂
           duration_ms := du₂
           worker_id := w₂
           processed_at := t₂ }] := by
  have h1 := save_filter_singleton sid fname sm₁ cf₁ er₁ du₁ w₁ t₁ rs h
  have h2 : ((save_smiles_result sid fname sm₁ cf₁ er₁ du₁ w₁ t₁ rs).filter
      (resultKey sid fname)).length ≤ 1 := by
    rw [h1]
    simp
  exact save_filter_singleton sid fname sm₂ cf₂ er₂ du₂ w₂ t₂ _ h2

/-- C6 witness: two writes for (1, "i.png") on an empty store leave exactly
the second row. -/
theorem save_smiles_result_upsert_witness :
    (([] : List ResultRow).filter (resultKey 1 "i.png")).length ≤ 1
    ∧ ((save_smiles_result 1 "i.png" (some "C2") none none 7 "w2" 20
         (save_smiles_result 1 "i.png" (some "C1") none none 5 "w1" 10 [])).filter
        (resultKey 1 "i.png"))
        = [{ synthesis_id := 1
             image_filename := "i.png"
             smiles := some "C2"
             smiles_confidence := none
             error := none
             duration_ms := 7
             worker_id := "w2"
             processed_at := 20 }] :=
  ⟨by decide,
   save_smiles_result_upsert 1 "i.png" (some "C1") (some "C2") none none none none
     5 7 "w1" "w2" 10 20 [] (by decide)⟩

/-! ## Worker control-flow facts -/

/-- No interference from other processes: the environment that leaves the
shared store alone between the worker's own statements. -/
def idEnv : Nat → DBState → DBState := fun _ db => db

theorem extend_lock_false_id (d w : String) (now : Nat) (s : List SynthRow)
    (h : (extend_lock d w now s).1 = false) :
    (extend_lock d w now s).2 = s := by
  have hall : ∀ r ∈ s, (extendCond d w r = true) = False := by
    intro r hr
    simp only [eq_iff_iff, iff_false]
    intro hc
    have : s.any (extendCond d w) = true := List.any_eq_true.mpr ⟨r, hr, hc⟩
    rw [show (extend_lock d w now s).1 = s.any (extendCond d w) from rfl, this] at h
    cases h
  show s.map _ = s
  have : ∀ r ∈ s, (if extendCond d w r then { r with locked_at := some now } else r) = r := by
    intro r hr
    rw [if_neg (by rw [hall r hr]; exact id)]
  calc s.map (fun r => if extendCond d w r then { r with locked_at := some now } else r)
      = s.map id := List.map_congr_left this
    _ = s := List.map_id s

theorem mark_completed_fields (d w : String) (sc fc ic now : Nat) (s : List SynthRow) :
    ∀ r ∈ mark_completed d w sc fc ic now s, r.name = d →
      r.status = SynthStatus.completed ∧ r.worker_id = some w ∧
      r.completed_at = some now ∧ r.successful = sc ∧ r.failed = fc ∧
      r.image_count = ic := by
  intro r hr hname
  obtain ⟨r₀, hr₀, hupd⟩ := List.mem_map.mp hr
  by_cases h : r₀.name = d
  · rw [if_pos h] at hupd
    rw [← hupd]
    exact ⟨rfl, rfl, rfl, rfl, rfl, rfl⟩
  · rw [if_neg h] at hupd
    rw [← hupd] at hname
    exact absurd hname h

theorem insertSorted_length (x : String) (l : List String) :
    (insertSorted x l).length = l.length + 1 := by
  induction l with
  | nil => rfl
  | cons y ys ih =>
    unfold insertSorted
    split
    · simp
    · simp [ih]

theorem sortImages_length (l : List String) : (sortImages l).length = l.length := by
  induction l with
  | nil => rfl
  | cons x xs ih => simp [sortImages, insertSorted_length, ih]

theorem processImages_hbs_length (sid : Nat) (d w : String)
    (model : String → Except String (String × List (String × ℚ)))
    (env : Nat → DBState → DBState) (time : Nat → Nat) :
    ∀ (imgs : List String) (i succ failCnt : Nat) (db : DBState),
      (processImages sid d w model env time i imgs succ failCnt db).hbs.length
        = imgs.length := by
  intro imgs
  induction imgs with
  | nil => intro i succ failCnt db; rfl
  | cons img rest ih =>
    intro i succ failCnt db
    cases hm : model img <;>
      simp [processImages, hm, ih]

theorem workerMain_startup_fail_eq (d w : String) (t0 : Nat)
    (images : List String)
    (model : String → Except String (String × List (String × ℚ)))
    (env : Nat → DBState → DBState) (time : Nat → Nat) (tfin : Nat)
    (db : DBState) (sid : Nat)
    (hsid : get_synthesis_id d db.synths = some sid) (h0 : ¬ sid = 0)
    (hext : (extend_lock d w t0 db.synths).1 = false) :
    workerMain d w t0 images model env time tfin db = ⟨1, [], db⟩ := by
  unfold workerMain
  rw [hsid]
  simp only [h0, if_false, hext, extend_lock_false_id d w t0 db.synths hext]
  simp

/-- C8 counterexample: the unit "mol-3" is locked by claimant "B", so worker
"W"'s startup `extend_lock` fails.  The worker exits 1 as the claim says,
but it does NOT finalize the unit as failed: `worker.main` calls
`sys.exit(1)` before the try-block whose handler calls `mark_failed`, so
the row is returned unchanged — still `locked` by "B", not `failed`. -/
theorem worker_startup_no_failure_finalize_cex :
    workerMain "mol-3" "W" 0 ["a.png"] (fun _ => Except.error "x") idEnv
        (fun _ => 0) 9
        ⟨[⟨1, "mol-3", SynthStatus.locked, some "B", some 0, none, none, 0, 0, 0⟩], []⟩
      = ⟨1, [],
         ⟨[⟨1, "mol-3", SynthStatus.locked, some "B", some 0, none, none, 0, 0, 0⟩], []⟩⟩
    ∧ (workerMain "mol-3" "W" 0 ["a.png"] (fun _ => Except.error "x") idEnv
        (fun _ => 0) 9
        ⟨[⟨1, "mol-3", SynthStatus.locked, some "B", some 0, none, none, 0, 0, 0⟩],
         []⟩).db.synths.map SynthRow.status = [SynthStatus.locked] := by
  constructor <;> decide

/-- C8 (amended): at startup, before processing any image, the worker
re-validates/extends its claim and aborts with a non-zero exit if the claim
no longer belongs to it — but it does NOT finalize the unit as failed: the
whole store is returned exactly as it was (no `mark_failed`, no result
writes). -/
theorem worker_startup_revalidates_no_finalize (d w : String) (t0 : Nat)
    (images : List String)
    (model : String → Except String (String × List (String × ℚ)))
    (env : Nat → DBState → DBState) (time : Nat → Nat) (tfin : Nat)
    (db : DBState) (sid : Nat)
    (hsid : get_synthesis_id d db.synths = some sid) (h0 : ¬ sid = 0)
    (hext : (extend_lock d w t0 db.synths).1 = false) :
    workerMain d w t0 images model env time tfin db = ⟨1, [], db⟩ :=
  workerMain_startup_fail_eq d w t0 images model env time tfin db sid hsid h0 hext

/-- C8 witness: the amended behaviour at the concrete counterexample state. -/
theorem worker_startup_revalidates_no_finalize_witness :
    get_synthesis_id "mol-3"
        [⟨1, "mol-3", SynthStatus.locked, some "B", some 0, none, none, 0, 0, 0⟩]
      = some 1
    ∧ ¬ (1 : Nat) = 0
    ∧ (extend_lock "mol-3" "W" 0
        [⟨1, "mol-3", SynthStatus.locked, some "B", some 0, none, none, 0, 0, 0⟩]).1 = false
    ∧ workerMain "mol-3" "W" 0 ["a.png"] (fun _ => Except.error "x") idEnv
        (fun _ => 0) 9
        ⟨[⟨1, "mol-3", SynthStatus.locked, some "B", some 0, none, none, 0, 0, 0⟩], []⟩
      = ⟨1, [],
         ⟨[⟨1, "mol-3", SynthStatus.locked, some "B", some 0, none, none, 0, 0, 0⟩], []⟩⟩ :=
  ⟨by decide, by decide, by decide,
   worker_startup_revalidates_no_finalize "mol-3" "W" 0 ["a.png"]
     (fun _ => Except.error "x") idEnv (fun _ => 0) 9
     ⟨[⟨1, "mol-3", SynthStatus.locked, some "B", some 0, none, none, 0, 0, 0⟩], []⟩
     1 (by decide) (by decide) (by decide)⟩

/-- C9: a worker that finds zero input images finalizes its unit as completed
with successful = 0, failed = 0, image_count = 0, writes no results, and
exits 0 — an empty batch is valid completion, not an error and not the
failed terminal state. -/
theorem worker_empty_batch_completed (d w : String) (t0 : Nat)
    (model : String → Except String (String × List (String × ℚ)))
    (env : Nat → DBState → DBState) (time : Nat → Nat) (tfin : Nat)
    (db : DBState) (sid : Nat)
    (hsid : get_synthesis_id d db.synths = some sid) (h0 : ¬ sid = 0)
    (hext : (extend_lock d w t0 db.synths).1 = true) :
    (workerMain d w t0 [] model env time tfin db).exitCode = 0
    ∧ (workerMain d w t0 [] model env time tfin db).db.results = db.results
    ∧ (∀ r ∈ (workerMain d w t0 [] model env time tfin db).db.synths,
        r.name = d →
          r.status = SynthStatus.completed ∧ r.worker_id = some w ∧
          r.completed_at = some tfin ∧ r.successful = 0 ∧ r.failed = 0 ∧
          r.image_count = 0) := by
  have hrun : workerMain d w t0 [] model env time tfin db
      = ⟨0, [], ⟨mark_completed d w 0 0 0 tfin (extend_lock d w t0 db.synths).2,
                 db.results⟩⟩ := by
    unfold workerMain
    rw [hsid]
    simp only [h0, if_false, hext]
    simp
  rw [hrun]
  exact ⟨rfl, rfl, mark_completed_fields d w 0 0 0 tfin _⟩

/-- C9 witness: an empty batch on a concretely claimed unit. -/
theorem worker_empty_batch_completed_witness :
    get_synthesis_id "mol-7"
        [⟨1, "mol-7", SynthStatus.locked, some "W", some 0, none, none, 0, 0, 0⟩]
      = some 1
    ∧ ¬ (1 : Nat) = 0
    ∧ (extend_lock "mol-7" "W" 0
        [⟨1, "mol-7", SynthStatus.locked, some "W", some 0, none, none, 0, 0, 0⟩]).1 = true
    ∧ (workerMain "mol-7" "W" 0 [] (fun _ => Except.error "x") idEnv
        (fun _ => 0) 9
        ⟨[⟨1, "mol-7", SynthStatus.locked, some "W", some 0, none, none, 0, 0, 0⟩],
         []⟩).exitCode = 0 :=
  ⟨by decide, by decide, by decide,
   (worker_empty_batch_completed "mol-7" "W" 0 (fun _ => Except.error "x") idEnv
     (fun _ => 0) 9
     ⟨[⟨1, "mol-7", SynthStatus.locked, some "W", some 0, none, none, 0, 0, 0⟩], []⟩
     1 (by decide) (by decide) (by decide)).1⟩

/-- C4 counterexample: worker "W" holds "mol-2" and heartbeats after every
image; during image "b"'s inference the lease expires and claimant "B"
legitimately reclaims the unit via find-and-lock, so the worker's next
heartbeat reports failure (`hbs = [true, false, false]`).  Contrary to the
claim, the worker does not abort: it writes a further ImageResult for image
"c" under the stale claim and exits 0 — `worker.main` discards the Boolean
returned by the per-image `extend_lock` call. -/
theorem worker_ignores_midloop_heartbeat_cex :
    (workerMain "mol-2" "W" 0 ["a", "b", "c"] (fun _ => Except.ok ("S", []))
        (fun i db => if i = 1 then
          { db with synths := (find_and_lock_available "B" 401 db.synths).2 }
          else db)
        (fun i => if i = 0 then 100 else if i = 1 then 450 else 470) 500
        ⟨[⟨1, "mol-2", SynthStatus.locked, some "W", some 0, none, none, 0, 0, 0⟩],
         []⟩).hbs = [true, false, false]
    ∧ (workerMain "mol-2" "W" 0 ["a", "b", "c"] (fun _ => Except.ok ("S", []))
        (fun i db => if i = 1 then
          { db with synths := (find_and_lock_available "B" 401 db.synths).2 }
          else db)
        (fun i => if i = 0 then 100 else if i = 1 then 450 else 470) 500
        ⟨[⟨1, "mol-2", SynthStatus.locked, some "W", some 0, none, none, 0, 0, 0⟩],
         []⟩).exitCode = 0
    ∧ ((workerMain "mol-2" "W" 0 ["a", "b", "c"] (fun _ => Except.ok ("S", []))
        (fun i db => if i = 1 then
          { db with synths := (find_and_lock_available "B" 401 db.synths).2 }
          else db)
        (fun i => if i = 0 then 100 else if i = 1 then 450 else 470) 500
        ⟨[⟨1, "mol-2", SynthStatus.locked, some "W", some 0, none, none, 0, 0, 0⟩],
         []⟩).db.results.map ResultRow.image_filename) = ["a", "b", "c"] := by
  refine ⟨?_, ?_, ?_⟩ <;> decide

/-- C4 (amended): a heartbeat failure is fatal only at the startup
re-validation, where the worker exits 1 leaving the store untouched; the
Boolean results of the per-image heartbeats are discarded — whatever they
are, the worker heartbeats once per image (`hbs.length = images.length`,
so it processes every image) and exits 0. -/
theorem worker_heartbeat_failure_policy (d w : String) (t0 : Nat)
    (images : List String)
    (model : String → Except String (String × List (String × ℚ)))
    (env : Nat → DBState → DBState) (time : Nat → Nat) (tfin : Nat)
    (db : DBState) (sid : Nat)
    (hsid : get_synthesis_id d db.synths = some sid) (h0 : ¬ sid = 0) :
    ((extend_lock d w t0 db.synths).1 = false →
      workerMain d w t0 images model env time tfin db = ⟨1, [], db⟩)
    ∧ ((extend_lock d w t0 db.synths).1 = true →
      (workerMain d w t0 images model env time tfin db).exitCode = 0
      ∧ (workerMain d w t0 images model env time tfin db).hbs.length
          = images.length) := by
  constructor
  · intro hext
    exact workerMain_startup_fail_eq d w t0 images model env time tfin db sid hsid h0 hext
  · intro hext
    unfold workerMain
    rw [hsid]
    simp only [h0, if_false, hext]
    by_cases him : images = []
    · subst him
      simp
    · simp [him, processImages_hbs_length, sortImages_length]

/-- C4 witness: the amended policy applied at the counterexample state
(startup heartbeat succeeds, later ones fail, worker still exits 0 after
heartbeating once per image). -/
theorem worker_heartbeat_failure_policy_witness :
    get_synthesis_id "mol-2"
        [⟨1, "mol-2", SynthStatus.locked, some "W", some 0, none, none, 0, 0, 0⟩]
      = some 1
    ∧ ¬ (1 : Nat) = 0
    ∧ (workerMain "mol-2" "W" 0 ["a", "b", "c"] (fun _ => Except.ok ("S", []))
        (fun i db => if i = 1 then
          { db with synths := (find_and_lock_available "B" 401 db.synths).2 }
          else db)
        (fun i => if i = 0 then 100 else if i = 1 then 450 else 470) 500
        ⟨[⟨1, "mol-2", SynthStatus.locked, some "W", some 0, none, none, 0, 0, 0⟩],
         []⟩).exitCode = 0 :=
  ⟨by decide, by decide,
   ((worker_heartbeat_failure_policy "mol-2" "W" 0 ["a", "b", "c"]
      (fun _ => Except.ok ("S", []))
      (fun i db => if i = 1 then
        { db with synths := (find_and_lock_available "B" 401 db.synths).2 }
        else db)
      (fun i => if i = 0 then 100 else if i = 1 then 450 else 470) 500
      ⟨[⟨1, "mol-2", SynthStatus.locked, some "W", some 0, none, none, 0, 0, 0⟩], []⟩
      1 (by decide) (by decide)).2 (by decide)).1⟩

theorem mem_save_smiles_result (sid : Nat) (fname : String) (sm : Option String)
    (cf : Option ℚ) (er : Option String) (du : Nat) (w : String) (t : Nat)
    (rs : List ResultRow) (r : ResultRow)
    (h : r ∈ save_smiles_result sid fname sm cf er du w t rs) :
    r ∈ rs ∨ (r.smiles = sm ∧ r.error = er) := by
  unfold save_smiles_result at h
  by_cases hany : rs.any (resultKey sid fname) = true
  · rw [if_pos hany] at h
    obtain ⟨r₀, hr₀, hupd⟩ := List.mem_map.mp h
    by_cases hk : resultKey sid fname r₀ = true
    · rw [if_pos hk] at hupd
      right
      rw [← hupd]
      exact ⟨rfl, rfl⟩
    · rw [if_neg (by simp [hk])] at hupd
      left
      rw [← hupd]
      exact hr₀
  · rw [if_neg hany] at h
    rcases List.mem_append.mp h with h' | h'
    · exact Or.inl h'
    · right
      have he : r = ⟨sid, fname, sm, cf, er, du, w, t⟩ := by simpa using h'
      rw [he]
      exact ⟨rfl, rfl⟩

theorem processImages_results_shape (sid : Nat) (d w : String)
    (model : String → Except String (String × List (String × ℚ)))
    (time : Nat → Nat) :
    ∀ (imgs : List String) (i succ failCnt : Nat) (db : DBState) (r : ResultRow),
      r ∈ (processImages sid d w model idEnv time i imgs succ failCnt db).db.results →
      r ∈ db.results ∨
        ((∃ sm, r.smiles = some sm) ∧ r.error = none) ∨
        (r.smiles = none ∧ ∃ e, r.error = some e) := by
  intro imgs
  induction imgs with
  | nil => intro i succ failCnt db r h; exact Or.inl h
  | cons img rest ih =>
    intro i succ failCnt db r h
    cases hm : model img with
    | ok val =>
      obtain ⟨sm, cc⟩ := val
      simp only [processImages, hm, idEnv] at h
      rcases ih (i + 1) _ _ _ r h with h' | h' | h'
      · rcases mem_save_smiles_result sid img (some sm) (avgConfidence cc) none 0 w
          (time i) db.results r h' with h'' | h''
        · exact Or.inl h''
        · exact Or.inr (Or.inl ⟨⟨sm, h''.1⟩, h''.2⟩)
      · exact Or.inr (Or.inl h')
      · exact Or.inr (Or.inr h')
    | error e =>
      simp only [processImages, hm, idEnv] at h
      rcases ih (i + 1) _ _ _ r h with h' | h' | h'
      · rcases mem_save_smiles_result sid img none none (some e) 0 w
          (time i) db.results r h' with h'' | h''
        · exact Or.inl h''
        · exact Or.inr (Or.inr ⟨h''.1, ⟨e, h''.2⟩⟩)
      · exact Or.inr (Or.inl h')
      · exact Or.inr (Or.inr h')

/-- C7: every ImageResult row a worker run adds to the store has exactly one
of the smiles and error fields present: the success path writes a present
smiles and a NULL error, the per-image exception path writes a NULL smiles
and a present error — never both present, never both NULL.  Rows already in
the store are the only other rows of the final state. -/
theorem worker_result_exclusivity (d w : String) (t0 : Nat) (images : List String)
    (model : String → Except String (String × List (String × ℚ)))
    (time : Nat → Nat) (tfin : Nat) (db : DBState) (r : ResultRow)
    (hr : r ∈ (workerMain d w t0 images model idEnv time tfin db).db.results) :
    r ∈ db.results ∨
      ((∃ sm, r.smiles = some sm) ∧ r.error = none) ∨
      (r.smiles = none ∧ ∃ e, r.error = some e) := by
  unfold workerMain at hr
  cases hsid : get_synthesis_id d db.synths with
  | none =>
    simp only [hsid] at hr
    exact Or.inl hr
  | some sid =>
    simp only [hsid] at hr
    by_cases h0 : sid = 0
    · rw [if_pos h0] at hr
      exact Or.inl hr
    · rw [if_neg h0] at hr
      cases hext : (extend_lock d w t0 db.synths).1 with
      | false =>
        simp only [hext] at hr
        exact Or.inl hr
      | true =>
        simp only [hext, Bool.true_eq_false, if_false] at hr
        by_cases him : images = []
        · rw [if_pos him] at hr
          exact Or.inl hr
        · rw [if_neg him] at hr
          have hr' : r ∈ (processImages sid d w model idEnv time 0 (sortImages images)
              0 0 ⟨(extend_lock d w t0 db.synths).2, db.results⟩).db.results := hr
          rcases processImages_results_shape sid d w model time (sortImages images)
              0 0 0 ⟨(extend_lock d w t0 db.synths).2, db.results⟩ r hr' with h' | h' | h'
          · exact Or.inl h'
          · exact Or.inr (Or.inl h')
          · exact Or.inr (Or.inr h')

/-- C7 witness: one successful image on a claimed unit yields the single row
with a present smiles and NULL error. -/
theorem worker_result_exclusivity_witness :
    (⟨1, "a.png", some "S", none, none, 0, "W", 0⟩ : ResultRow) ∈
      (workerMain "mol-5" "W" 0 ["a.png"] (fun _ => Except.ok ("S", [])) idEnv
        (fun _ => 0) 9
        ⟨[⟨1, "mol-5", SynthStatus.locked, some "W", some 0, none, none, 0, 0, 0⟩],
         []⟩).db.results
    ∧ ((⟨1, "a.png", some "S", none, none, 0, "W", 0⟩ : ResultRow) ∈
        ([] : List ResultRow) ∨
      ((∃ sm, (⟨1, "a.png", some "S", none, none, 0, "W", 0⟩ : ResultRow).smiles = some sm)
        ∧ (⟨1, "a.png", some "S", none, none, 0, "W", 0⟩ : ResultRow).error = none) ∨
      ((⟨1, "a.png", some "S", none, none, 0, "W", 0⟩ : ResultRow).smiles = none
        ∧ ∃ e, (⟨1, "a.png", some "S", none, none, 0, "W", 0⟩ : ResultRow).error = some e)) :=
  ⟨by decide,
   worker_result_exclusivity "mol-5" "W" 0 ["a.png"] (fun _ => Except.ok ("S", []))
     (fun _ => 0) 9
     ⟨[⟨1, "mol-5", SynthStatus.locked, some "W", some 0, none, none, 0, 0, 0⟩], []⟩
     ⟨1, "a.png", some "S", none, none, 0, "W", 0⟩ (by decide)⟩

/-- C5: end-to-end scenario — a claimed unit "mol-1" with 3 images where
inference raises on image 2 ("b.png") and succeeds on the other two.  The
run records the error per item and continues: it exits 0, the unit ends
completed (not failed) with successful = 2, failed = 1, image_count = 3,
and exactly 3 ImageResult rows exist, of which exactly one has a present
error — and that one has a NULL smiles. -/
theorem worker_three_image_scenario
    (model : String → Except String (String × List (String × ℚ)))
    (s₁ s₃ : String) (cc₁ cc₃ : List (String × ℚ)) (e : String)
    (h1 : model "a.png" = Except.ok (s₁, cc₁))
    (h2 : model "b.png" = Except.error e)
    (h3 : model "c.png" = Except.ok (s₃, cc₃)) :
    workerMain "mol-1" "w1" 0 ["a.png", "b.png", "c.png"] model idEnv (fun i => i) 9
        ⟨[⟨1, "mol-1", SynthStatus.locked, some "w1", some 0, none, none, 0, 0, 0⟩], []⟩
      = ⟨0, [true, true, true],
         ⟨[⟨1, "mol-1", SynthStatus.completed, some "w1", some 2, some "w1", some 9, 2, 1, 3⟩],
          [⟨1, "a.png", some s₁, avgConfidence cc₁, none, 0, "w1", 0⟩,
           ⟨1, "b.png", none, none, some e, 0, "w1", 1⟩,
           ⟨1, "c.png", some s₃, avgConfidence cc₃, none, 0, "w1", 2⟩]⟩⟩
    ∧ (workerMain "mol-1" "w1" 0 ["a.png", "b.png", "c.png"] model idEnv (fun i => i) 9
        ⟨[⟨1, "mol-1", SynthStatus.locked, some "w1", some 0, none, none, 0, 0, 0⟩],
         []⟩).db.results.length = 3
    ∧ ((workerMain "mol-1" "w1" 0 ["a.png", "b.png", "c.png"] model idEnv (fun i => i) 9
        ⟨[⟨1, "mol-1", SynthStatus.locked, some "w1", some 0, none, none, 0, 0, 0⟩],
         []⟩).db.results.countP (fun r => r.error.isSome)) = 1
    ∧ ((workerMain "mol-1" "w1" 0 ["a.png", "b.png", "c.png"] model idEnv (fun i => i) 9
        ⟨[⟨1, "mol-1", SynthStatus.locked, some "w1", some 0, none, none, 0, 0, 0⟩],
         []⟩).db.results.countP (fun r => r.error.isSome && r.smiles.isNone)) = 1 := by
  have hs : sortImages ["a.png", "b.png", "c.png"] = ["a.png", "b.png", "c.png"] := by
    decide
  have hrun : workerMain "mol-1" "w1" 0 ["a.png", "b.png", "c.png"] model idEnv
      (fun i => i) 9
      ⟨[⟨1, "mol-1", SynthStatus.locked, some "w1", some 0, none, none, 0, 0, 0⟩], []⟩
      = ⟨0, [true, true, true],
         ⟨[⟨1, "mol-1", SynthStatus.completed, some "w1", some 2, some "w1", some 9, 2, 1, 3⟩],
          [⟨1, "a.png", some s₁, avgConfidence cc₁, none, 0, "w1", 0⟩,
           ⟨1, "b.png", none, none, some e, 0, "w1", 1⟩,
           ⟨1, "c.png", some s₃, avgConfidence cc₃, none, 0, "w1", 2⟩]⟩⟩ := by
    simp [workerMain, hs, processImages, h1, h2, h3, idEnv, get_synthesis_id,
      extend_lock, extendCond, save_smiles_result, resultKey, mark_completed,
      List.find?]
  refine ⟨hrun, ?_, ?_, ?_⟩ <;> rw [hrun] <;> rfl

/-- C5 witness: the scenario at a concrete inference function that throws
exactly on "b.png". -/
theorem worker_three_image_scenario_witness :
    (fun img => if img = "b.png" then Except.error "boom"
      else Except.ok (("S", []) : String × List (String × ℚ))) "a.png"
        = Except.ok (("S", []) : String × List (String × ℚ))
    ∧ (fun img => if img = "b.png" then Except.error "boom"
        else Except.ok (("S", []) : String × List (String × ℚ))) "b.png"
        = Except.error "boom"
    ∧ (fun img => if img = "b.png" then Except.error "boom"
        else Except.ok (("S", []) : String × List (String × ℚ))) "c.png"
        = Except.ok (("S", []) : String × List (String × ℚ))
    ∧ workerMain "mol-1" "w1" 0 ["a.png", "b.png", "c.png"]
        (fun img => if img = "b.png" then Except.error "boom"
          else Except.ok (("S", []) : String × List (String × ℚ)))
        idEnv (fun i => i) 9
        ⟨[⟨1, "mol-1", SynthStatus.locked, some "w1", some 0, none, none, 0, 0, 0⟩], []⟩
      = ⟨0, [true, true, true],
         ⟨[⟨1, "mol-1", SynthStatus.completed, some "w1", some 2, some "w1", some 9, 2, 1, 3⟩],
          [⟨1, "a.png", some "S", avgConfidence [], none, 0, "w1", 0⟩,
           ⟨1, "b.png", none, none, some "boom", 0, "w1", 1⟩,
           ⟨1, "c.png", some "S", avgConfidence [], none, 0, "w1", 2⟩]⟩⟩ :=
  ⟨rfl, rfl, rfl,
   (worker_three_image_scenario
     (fun img => if img = "b.png" then Except.error "boom"
       else Except.ok (("S", []) : String × List (String × ℚ)))
     "S" "S" [] [] "boom" rfl rfl rfl).1⟩

